import Mathlib

/-!
Verification development for the Homey device-liveness monitoring scripts.

The definitions below are a shallow embedding of the two scripts that the
claims reference:

* the wake-up helper (configurable filters + post-wake validation), whose
  entry point is `wakeupDevices`;
* the Zigbee last-seen and battery monitor, whose entry point is
  `checkZigbeeLastSeen`.

Conventions of the embedding:

* JS timestamps (milliseconds since the epoch) are `Int`; a NaN timestamp
  produced by `new Date(...).getTime()` on an absent or unparseable value is
  represented by `Option Int` with `none` for NaN.
* The JS numbers manipulated by the duration parser are modelled as
  rationals; the unit scalings of the source are exact on them.
* Promise-based effects are modelled by explicit data: the directory fetches
  are `Except` values supplied by the environment, and the per-device outcome
  of `setCapabilityValue` is a Boolean function of the device id (failures
  are swallowed by the `.catch` handler in the source, so an outcome is
  always observed at the join and never escapes).
* Pure text rendering (date formatting, `toFixed` ages, padded tables, the
  bracketed parts of report lines) is elided, as the design document scopes
  it out; report lines keep the device identity they carry.
-/

/-! ## Definitions: the shallow embedding of the scripts -/

/-- Numeric value of a list of decimal digit characters (most significant
first), as the JS digit-string folds do. -/
def digitsToNat (ds : List Char) : Nat :=
  ds.foldl (fun a c => a * 10 + (c.toNat - 48)) 0

/-- Whitespace for the purposes of `String.prototype.trim` (the common ASCII
whitespace characters; the scripts only ever trim these). -/
def isJsSpace (c : Char) : Bool := c == ' ' || c == '\t' || c == '\n' || c == '\r'

/-- `trim()` on a character list. -/
def trimChars (cs : List Char) : List Char :=
  ((cs.dropWhile isJsSpace).reverse.dropWhile isJsSpace).reverse

/-- `toLowerCase()` on a character list. -/
def lowerChars (cs : List Char) : List Char := cs.map Char.toLower

/-- `toLowerCase()` on a string. -/
def lowerStr (s : String) : String := String.mk (lowerChars s.toList)

/-- Case-insensitive substring test: the semantics of
`new RegExp(pat, "i").test(hay)` for a pattern that is a plain literal with
no regex metacharacters (all patterns in the scripts are such literals). -/
def containsCI (hay pat : String) : Bool :=
  let h := lowerChars hay.toList
  let p := lowerChars pat.toList
  (List.range (h.length + 1)).any (fun i => (h.drop i).take p.length == p)

/-- The inner `applyUnit` helper of `parseDurationToMs`: switches on the
unit character, returning `defaultMs` for an unrecognised unit. -/
def applyUnit (val : ℚ) (u : Char) (defaultMs : ℚ) : ℚ :=
  if u == 's' then val * 1000
  else if u == 'm' then val * 60 * 1000
  else if u == 'h' then val * 60 * 60 * 1000
  else if u == 'd' then val * 24 * 60 * 60 * 1000
  else defaultMs

/-- Milliseconds in one unit `u`, for stating unit-correctness. -/
def msPerUnit (u : Char) : ℚ := applyUnit 1 u 0

/-- Tail of the duration regex after the numeric part: an optional single
unit letter in `[smhd]` followed by the end of the string. -/
def parseUnitEnd (rest : List Char) (v : ℚ) : Option (ℚ × Option Char) :=
  match rest with
  | [] => some (v, none)
  | [c] => if c == 's' || c == 'm' || c == 'h' || c == 'd' then some (v, some c) else none
  | _ => none

/-- The regex match of `parseDurationToMs` on the trimmed, lowercased input:
a decimal number (digits with an optional fractional part) followed by an
optional unit letter, anchored at both ends. `none` models a failed match. -/
def matchDuration (s : List Char) : Option (ℚ × Option Char) :=
  let ds := s.takeWhile Char.isDigit
  if ds.isEmpty then none
  else
    match s.drop ds.length with
    | '.' :: rest2 =>
      let fs := rest2.takeWhile Char.isDigit
      if fs.isEmpty then none
      else parseUnitEnd (rest2.drop fs.length)
        ((digitsToNat ds : ℚ) + (digitsToNat fs : ℚ) / (10 : ℚ) ^ fs.length)
    | rest => parseUnitEnd rest (digitsToNat ds)

/-- Hex digit value for a lowercased hex digit character. -/
def hexDigitVal (c : Char) : Nat :=
  if c.isDigit then c.toNat - 48 else c.toNat - 87

def isHexDigitLower (c : Char) : Bool := c.isDigit || ('a' ≤ c && c ≤ 'f')

def isBinDigit (c : Char) : Bool := c == '0' || c == '1'

def isOctDigit (c : Char) : Bool := '0' ≤ c && c ≤ '7'

/-- Value of a digit list in base `b`. -/
def radixVal (b : Nat) (ds : List Char) : Nat :=
  ds.foldl (fun a c => a * b + hexDigitVal c) 0

/-- Exponent part of a JS decimal literal (after the letter e). -/
def jsExponent : List Char → Option Int
  | '+' :: r => if !r.isEmpty && r.all Char.isDigit then some ((digitsToNat r : Int)) else none
  | '-' :: r => if !r.isEmpty && r.all Char.isDigit then some (-(digitsToNat r : Int)) else none
  | r => if !r.isEmpty && r.all Char.isDigit then some ((digitsToNat r : Int)) else none

/-- Attach an optional exponent suffix to an already-parsed mantissa. -/
def withExponent (base : ℚ) : List Char → Option ℚ
  | [] => some base
  | 'e' :: r => (jsExponent r).map (fun e => base * (10 : ℚ) ^ e)
  | _ => none

/-- An unsigned JS decimal literal: digits with an optional fractional part
(at least one digit overall), then an optional exponent. -/
def parseDecNumber (cs : List Char) : Option ℚ :=
  let ip := cs.takeWhile Char.isDigit
  match cs.drop ip.length with
  | '.' :: r2 =>
    let fp := r2.takeWhile Char.isDigit
    if ip.isEmpty && fp.isEmpty then none
    else withExponent ((digitsToNat ip : ℚ) + (digitsToNat fp : ℚ) / (10 : ℚ) ^ fp.length)
      (r2.drop fp.length)
  | r1 =>
    if ip.isEmpty then none
    else withExponent (digitsToNat ip : ℚ) r1

/-- Models `Number(raw)` on the already trimmed, lowercased string that the
script passes to it: `some q` for a finite numeric value, `none` when the
result is NaN or non-finite (so that `Number.isFinite` fails). The empty
string converts to 0; unsigned hex, binary and octal literals are accepted;
a signed radix literal is NaN in JS and is `none` here. Note the script has
lowercased the string, so the spelling Infinity can no longer occur. -/
def jsNumber (s : List Char) : Option ℚ :=
  if s.isEmpty then some 0
  else
    match s with
    | '0' :: 'x' :: hs =>
      if !hs.isEmpty && hs.all isHexDigitLower then some (radixVal 16 hs) else none
    | '0' :: 'b' :: bs =>
      if !bs.isEmpty && bs.all isBinDigit then some (radixVal 2 bs) else none
    | '0' :: 'o' :: os =>
      if !os.isEmpty && os.all isOctDigit then some (radixVal 8 os) else none
    | '+' :: r => parseDecNumber r
    | '-' :: r => (parseDecNumber r).map (fun q => -q)
    | _ => parseDecNumber s

/-- The normalisation the script applies before matching:
`String(input).trim().toLowerCase()`, as a character list. -/
def normInput (s : String) : List Char := lowerChars (trimChars s.toList)

/-- The options object of `parseDurationToMs`. -/
structure DurOpts where
  defaultUnit : Char
  defaultMs : ℚ

/-- `parseDurationToMs(input, { defaultUnit, defaultMs })` of the wake-up
helper. `none` models a null or undefined input. -/
def parseDurationToMs (input : Option String) (opts : DurOpts) : ℚ :=
  match input with
  | none => opts.defaultMs
  | some str =>
    if str == "" then opts.defaultMs
    else
      let raw := normInput str
      match matchDuration raw with
      | some (value, unitChar) => applyUnit value (unitChar.getD opts.defaultUnit) opts.defaultMs
      | none =>
        match jsNumber raw with
        | some n => applyUnit n opts.defaultUnit opts.defaultMs
        | none => opts.defaultMs

/-- A capability value as stored by Homey: boolean, numeric, or null. -/
inductive CapValue where
  | b (v : Bool)
  | n (v : ℚ)
  | null
deriving DecidableEq

/-- JS truthiness coercion `!!v` of a capability value. -/
def jsTruthy : CapValue → Bool
  | .b v => v
  | .n q => decide (q ≠ 0)
  | .null => false

/-- One entry of `capabilitiesObj`: a value and the `lastUpdated` instant
(`none` when the field is absent or does not parse to a valid date). -/
structure Capability where
  value : CapValue
  lastUpdated : Option Int
deriving DecidableEq

/-- A Homey device as the scripts read it. Absent string fields are modelled
by the empty string, matching their falsy role in the source. -/
structure Device where
  id : String
  name : String
  deviceClass : String
  virtualClass : Option String
  capabilities : List String
  capabilitiesObj : List (String × Capability)
  flags : List String
  driverUri : String
  driverId : String
  settingsKeys : List String
  zone : Option String
deriving DecidableEq

/-- Lookup of `capabilitiesObj[c]`: present or not. -/
def hasCap (device : Device) (c : String) : Bool :=
  (device.capabilitiesObj.find? (fun p => p.1 == c)).isSome

/-- The value stored at `capabilitiesObj[c]`, null when absent. -/
def capValue (device : Device) (c : String) : CapValue :=
  ((device.capabilitiesObj.find? (fun p => p.1 == c)).map (fun p => p.2.value)).getD .null

def CONFIG_includeTransports : List String := ["zigbee"]

def CONFIG_includeClasses : List String := ["light"]

def CONFIG_excludeClasses : List String :=
  ["sensor", "button", "remote", "socket", "other", "curtain", "blind", "valve",
   "thermostat", "fan", "lock"]

def CONFIG_includeNamePatterns : List String := []

def CONFIG_excludeNamePatterns : List String := ["Unif", "Christma", "group"]

def CONFIG_alwaysApplyClassExclusions : Bool := true

def CONFIG_treatVirtualClassAsClass : Bool := true

/-- `compileRegexList`: trims each pattern, drops empty ones (the match-all
guard), and compiles the rest case-insensitively. Every configured pattern is
a plain literal, so a compiled regex is a case-insensitive substring test,
and the bad-regex catch branch never fires for them. -/
def compileRegexList (list : List String) : List (String → Bool) :=
  (list.map (fun p => String.mk (trimChars p.toList))).filter (fun s => !(s == ""))
    |>.map (fun s => fun name => containsCI name s)

def RX_INCLUDE_NAME : List (String → Bool) := compileRegexList CONFIG_includeNamePatterns

def RX_EXCLUDE_NAME : List (String → Bool) := compileRegexList CONFIG_excludeNamePatterns

/-- `set.add(...)` on the transport list (insertion only if absent). -/
def addTransport (s : List String) (t : String) : List String :=
  if s.contains t then s else s ++ [t]

/-- Does a settings key start with the two-letter prefix zb followed by an
underscore or a dash (case-insensitively)? -/
def zbKeyTag (k : String) : Bool :=
  match lowerChars k.toList with
  | 'z' :: 'b' :: c :: _ => c == '_' || c == '-'
  | _ => false

/-- Does a settings key start with the two-letter prefix zw followed by an
underscore or a dash (case-insensitively)? -/
def zwKeyTag (k : String) : Bool :=
  match lowerChars k.toList with
  | 'z' :: 'w' :: c :: _ => c == '_' || c == '-'
  | _ => false

/-- `detectTransports`: union of substring evidence from flags, the driver
identifier, and settings-key prefixes. -/
def detectTransports (device : Device) : List String :=
  let s1 := device.flags.foldl (fun acc f =>
    let fl := lowerStr f
    let a1 := if containsCI fl "zigbee" then addTransport acc "zigbee" else acc
    let a2 := if containsCI fl "zwave" then addTransport a1 "zwave" else a1
    let a3 := if containsCI fl "ble" || containsCI fl "bluetooth" then addTransport a2 "ble" else a2
    let a4 := if containsCI fl "wifi" || containsCI fl "wi-fi" then addTransport a3 "wifi" else a3
    let a5 := if containsCI fl "infrared" || containsCI fl "ir" then addTransport a4 "infrared" else a4
    let a6 := if containsCI fl "433" then addTransport a5 "rf433" else a5
    if containsCI fl "868" then addTransport a6 "rf868" else a6) []
  let uri := lowerStr (if device.driverUri == "" then device.driverId else device.driverUri)
  let s2 := if containsCI uri "zigbee" then addTransport s1 "zigbee" else s1
  let s3 := if containsCI uri "zwave" then addTransport s2 "zwave" else s2
  device.settingsKeys.foldl (fun acc k =>
    let a1 := if zbKeyTag k then addTransport acc "zigbee" else acc
    if zwKeyTag k then addTransport a1 "zwave" else a1) s3

/-- `transportAllowed`: an empty wanted set allows everything, otherwise the
detected transports must intersect it. -/
def transportAllowed (device : Device) : Bool :=
  let want := CONFIG_includeTransports.map lowerStr
  if want.length == 0 then true
  else (detectTransports device).any (fun t => want.contains t)

/-- `classIs`: the real class, or the virtual class when that is enabled. -/
def classIs (device : Device) (cls : String) (treatVirtual : Bool) : Bool :=
  device.deviceClass == cls || (treatVirtual && device.virtualClass == some cls)

/-- `nameMatchesAny`: false on an empty pattern list, otherwise any match. -/
def nameMatchesAny (name : String) (regexList : List (String → Bool)) : Bool :=
  decide (regexList.length > 0) && regexList.any (fun rx => rx name)

/-- Reason codes of an inclusion decision. -/
inductive IncReason where
  | noDevice | transport | notIncluded | nameExcluded | classExcluded | included
deriving DecidableEq

/-- The `{ ok, reason }` result of `isIncludedByConfig`. -/
structure IncDecision where
  ok : Bool
  reason : IncReason
deriving DecidableEq

/-- `isIncludedByConfig`: the ordered chain of transport, candidacy
(class or name), name-exclusion and class-exclusion checks. -/
def isIncludedByConfig : Option Device → IncDecision
  | none => ⟨false, .noDevice⟩
  | some device =>
    let name := device.name
    let transportsWanted := CONFIG_includeTransports.map lowerStr
    if decide (transportsWanted.length > 0) && !transportAllowed device then
      ⟨false, .transport⟩
    else
      let treatVirtual := CONFIG_treatVirtualClassAsClass
      let includeByClass := CONFIG_includeClasses.any (fun cls => classIs device cls treatVirtual)
      let includeByName := nameMatchesAny name RX_INCLUDE_NAME
      let candidate := includeByClass || includeByName
      if !candidate then ⟨false, .notIncluded⟩
      else if nameMatchesAny name RX_EXCLUDE_NAME then ⟨false, .nameExcluded⟩
      else if CONFIG_alwaysApplyClassExclusions && CONFIG_excludeClasses.contains device.deviceClass then
        ⟨false, .classExcluded⟩
      else ⟨true, .included⟩

/-- `mostRecentCapabilityTs`: fold over the capability map keeping the
greatest valid instant; starts from the NaN sentinel, modelled as `none`. -/
def mostRecentCapabilityTs (capabilitiesObj : List (String × Capability)) : Option Int :=
  capabilitiesObj.foldl (fun mostRecent cap =>
    match cap.2.lastUpdated with
    | none => mostRecent
    | some ts =>
      match mostRecent with
      | none => some ts
      | some m => if ts > m then some ts else mostRecent) none

/-- The record computed by `classify` (the rendered fields `minutesSince`
and `lastStr` are pure formatting and are elided). When no valid timestamp
exists, `timeSinceUpdate` is Infinity in the source, so the comparison
`Infinity > thresholdMs` makes `isStale` true as well as `isUnknown`. -/
structure ClassifyInfo where
  isStale : Bool
  isUnknown : Bool
  isLight : Bool
  hasOnoff : Bool
deriving DecidableEq

/-- `classify(device, now, thresholdMs)` of the wake-up helper. -/
def classify (device : Device) (now thresholdMs : Int) : ClassifyInfo :=
  let isLight := classIs device "light" true
  let hasOnoff := hasCap device "onoff"
  match mostRecentCapabilityTs device.capabilitiesObj with
  | none => ⟨true, true, isLight, hasOnoff⟩
  | some ts => ⟨decide (now - ts > thresholdMs), false, isLight, hasOnoff⟩

/-- The three observable staleness states. -/
inductive Staleness where
  | fresh | stale | unknown
deriving DecidableEq

/-- The effective three-state classification, exactly as the run consumes
the `classify` record: a device is failing when `isStale || isUnknown`
holds, and every consumer that distinguishes the two (the reason text and
the NOK log line) gives `isUnknown` priority, so an unknown device is
reported as unknown and never as threshold-stale. -/
def classificationOf (device : Device) (now thresholdMs : Int) : Staleness :=
  let info := classify device now thresholdMs
  if info.isUnknown then .unknown
  else if info.isStale then .stale
  else .fresh

/-- Status of one Zigbee node in the last-seen check: the NaN test comes
first (reason no updates), otherwise the age is compared with the threshold
using greater-or-equal. -/
inductive ZigbeeStatus where
  | ok | nokNoUpdates | nokThreshold
deriving DecidableEq

/-- Lines 134 to 147 of the Zigbee monitor, as a function of the parsed
`lastSeen` instant (`none` for an absent or unparseable value). -/
def zigbeeLastSeenStatus (lastSeenTs : Option Int) (now thresholdInMillis : Int) : ZigbeeStatus :=
  match lastSeenTs with
  | none => .nokNoUpdates
  | some ts => if now - ts ≥ thresholdInMillis then .nokThreshold else .ok

/-- A device with a single valid capability timestamp at instant 0. -/
def c1Dev : Device :=
  ⟨"c1", "Boundary lamp", "light", none, ["measure_temperature"],
   [("measure_temperature", ⟨.n 20, some 0⟩)], ["zigbee"], "", "", [], none⟩

/-- A device whose only capability has no valid `lastUpdated`. -/
def c2Dev : Device :=
  ⟨"c2", "Silent lamp", "light", none, ["onoff"],
   [("onoff", ⟨.b true, none⟩)], ["zigbee"], "", "", [], none⟩

/-- A light that passes the inclusion filter. -/
def c8Dev : Device :=
  ⟨"c8", "Desk lamp", "light", none, ["onoff"],
   [("onoff", ⟨.b true, some 0⟩)], ["zigbee"], "", "", [], none⟩

/-- A NOK candidate as pushed by the main loop: `{ id, name }`. -/
structure Cand where
  id : String
  name : String
deriving DecidableEq

/-- One entry of the `DevicesNotReporting` list. The bracketed age and date
text of the source line is pure formatting and is elided; the entry keeps
the device name it starts with. -/
structure NokLine where
  name : String
deriving DecidableEq

/-- Accumulator of the main classification loop of `wakeupDevices`. -/
structure MainAcc where
  okCount : Nat
  nokCount : Nat
  lines : List NokLine
  nokCandidates : List Cand
  wokenAttempted : Nat
  wokenSucceeded : Nat
  wokenIds : List String
  wakeWrites : List (String × Bool)

def initMainAcc : MainAcc := ⟨0, 0, [], [], 0, 0, [], []⟩

/-- The body of the main `for` loop of `wakeupDevices` for one device.
`wakeOk` is the eventual outcome of the concurrently issued
`setCapabilityValue` promise for a device id; the `.then` handler increments
`wokenSucceeded` on success and the `.catch` handler swallows a failure, so
after the `Promise.all` join the success counter holds exactly the number of
successful writes, which is what the accumulator records. `wakeWrites`
records each issued write with the value written,
`!!device.capabilitiesObj["onoff"].value`. -/
def processDevice (wakeOk : String → Bool) (now thresholdInMillis : Int)
    (acc : MainAcc) (device : Device) : MainAcc :=
  if (isIncludedByConfig (some device)).ok then
    let info := classify device now thresholdInMillis
    if info.isStale || info.isUnknown then
      let acc1 :=
        if info.isLight && info.hasOnoff then
          let currentVal := jsTruthy (capValue device "onoff")
          { acc with
            wokenAttempted := acc.wokenAttempted + 1
            wokenIds := acc.wokenIds ++ [device.id]
            wakeWrites := acc.wakeWrites ++ [(device.id, currentVal)]
            wokenSucceeded := acc.wokenSucceeded + (if wakeOk device.id then 1 else 0) }
        else acc
      { acc1 with
        lines := acc1.lines ++ [⟨device.name⟩]
        nokCount := acc1.nokCount + 1
        nokCandidates := acc1.nokCandidates ++ [⟨device.id, device.name⟩] }
    else { acc with okCount := acc.okCount + 1 }
  else acc

/-- The whole main classification loop. -/
def mainPass (devices : List Device) (wakeOk : String → Bool)
    (now thresholdInMillis : Int) : MainAcc :=
  devices.foldl (processDevice wakeOk now thresholdInMillis) initMainAcc

/-- `new Map(Object.values(refreshed).map(d => [d.id, d])).get(i)`: on
duplicate ids the last entry wins. -/
def byIdLookup (refreshed : List Device) (i : String) : Option Device :=
  refreshed.reverse.find? (fun d => d.id == i)

/-- The re-check of one original NOK candidate during validation: missing
from the re-fetched directory means still failing, otherwise re-classify. -/
def stillFails (refreshed : List Device) (now2 thresholdInMillis : Int) (c : Cand) : Bool :=
  match byIdLookup refreshed c.id with
  | none => true
  | some d2 =>
    let info2 := classify d2 now2 thresholdInMillis
    info2.isStale || info2.isUnknown

/-- The environment of one run: the two directory fetches (main pass and
validation pass), the sampled clock instants, and the per-device outcome of
the corrective writes. The validation delay and `safeSleep` are a pure time
suspension with no data effect and are elided. -/
structure WEnv where
  fetch1 : Except Unit (List Device)
  fetch2 : Except Unit (List Device)
  now : Int
  now2 : Int
  wakeOk : String → Bool

/-- The published outputs of a completed run: the summary counts, the final
`DevicesNotReporting` list, and the boolean return value
`DevicesNotReporting.length !== 0`. -/
structure RunResult where
  okCount : Nat
  nokCount : Nat
  wokenAttempted : Nat
  wokenSucceeded : Nat
  devicesNotReporting : List NokLine
  anyNotReporting : Bool
deriving DecidableEq

/-- `wakeupDevices()` of the wake-up helper, for a given parsed threshold.
The function has no try/catch around its directory fetches, so a rejected
fetch propagates out of the run (modelled as `Except.error`) and no tags are
published. On the success path: run the main loop, await the wake join,
then, when the failing set is non-empty, re-fetch and reconcile; the
replacement of the failing list and the `nokCount` decrement happen only
when at least one device recovered, exactly as in the source. -/
def wakeupDevices (thresholdInMillis : Int) (env : WEnv) : Except Unit RunResult :=
  match env.fetch1 with
  | .error e => .error e
  | .ok devices =>
    let mp := mainPass devices env.wakeOk env.now thresholdInMillis
    if decide (mp.nokCandidates.length > 0) then
      match env.fetch2 with
      | .error e => .error e
      | .ok refreshed =>
        let stillFailed := mp.nokCandidates.filter (stillFails refreshed env.now2 thresholdInMillis)
        let recoveredCount := mp.nokCandidates.length - stillFailed.length
        if decide (recoveredCount > 0) then
          let freshFailedLines := stillFailed.map (fun f =>
            match byIdLookup refreshed f.id with
            | none => NokLine.mk f.name
            | some d3 => NokLine.mk d3.name)
          .ok ⟨mp.okCount, mp.nokCount - recoveredCount, mp.wokenAttempted, mp.wokenSucceeded,
               freshFailedLines, decide (freshFailedLines.length ≠ 0)⟩
        else
          .ok ⟨mp.okCount, mp.nokCount, mp.wokenAttempted, mp.wokenSucceeded,
               mp.lines, decide (mp.lines.length ≠ 0)⟩
    else
      .ok ⟨mp.okCount, mp.nokCount, mp.wokenAttempted, mp.wokenSucceeded,
           mp.lines, decide (mp.lines.length ≠ 0)⟩

/-- Wake eligibility, exactly the guards of the source loop: included,
classified failing, a light, and exposing onoff. -/
def wakeEligible (now thr : Int) (d : Device) : Bool :=
  (isIncludedByConfig (some d)).ok &&
    ((classify d now thr).isStale || (classify d now thr).isUnknown) &&
    ((classify d now thr).isLight && (classify d now thr).hasOnoff)

def c4DevA : Device :=
  ⟨"a", "Lamp A", "light", none, ["onoff"],
   [("onoff", ⟨.b true, some 0⟩)], ["zigbee"], "", "", [], none⟩

def c4DevB : Device :=
  ⟨"b", "Lamp B", "light", none, ["onoff"],
   [("onoff", ⟨.b false, some 0⟩)], ["zigbee"], "", "", [], none⟩

def c4DevC : Device :=
  ⟨"c", "Lamp C", "light", none, ["onoff"],
   [("onoff", ⟨.b true, some 0⟩)], ["zigbee"], "", "", [], none⟩

/-- Write outcomes where only device b fails. -/
def c4WakeOk : String → Bool := fun i => !(i == "b")

/-- An included stale light with onoff currently true. -/
def c5Dev : Device :=
  ⟨"c5", "Stale lamp", "light", none, ["onoff"],
   [("onoff", ⟨.b true, some 0⟩)], ["zigbee"], "", "", [], none⟩

/-- Original devices of the C3 scenario: two stale lights A and B. -/
def c3DevA : Device :=
  ⟨"a", "A", "light", none, [],
   [("measure_temperature", ⟨.n 1, some 0⟩)], ["zigbee"], "", "", [], none⟩

def c3DevB : Device :=
  ⟨"b", "B", "light", none, [],
   [("measure_temperature", ⟨.n 1, some 0⟩)], ["zigbee"], "", "", [], none⟩

/-- Re-fetched state of A with a recent timestamp: recovered. -/
def c3DevA2 : Device :=
  ⟨"a", "A", "light", none, [],
   [("measure_temperature", ⟨.n 1, some 999990⟩)], ["zigbee"], "", "", [], none⟩

def NotReportingThreshold : Int := 2

def zbThresholdInMillis : Int := NotReportingThreshold * 3600000

def BatteryThreshold : ℚ := 30

def EXCLUDED_ZONES : List String := ["Bathroom", "Main Entry", "Living Room"]

/-- The alternatives of `INCLUDED_DEVICE_CLASSES_REGEX`, each a plain
literal tested as a case-insensitive substring. -/
def INCLUDED_DEVICE_CLASSES : List String :=
  ["sensor", "button", "remote", "socket", "light", "other", "switch"]

/-- The alternatives of `EXCLUDED_DEVICE_NAME_PATTERN`. The include-name
pattern of this script is the match-all regex and never filters. -/
def EXCLUDED_DEVICE_NAMES : List String := ["smoke", "flood", "bulb", "spot"]

def includeEndDevices : Bool := true

def includeRouters : Bool := true

/-- A node of the Zigbee state: name, node type, and the parsed `lastSeen`
instant (`none` when absent or unparseable). -/
structure ZbNode where
  name : Option String
  nodeType : Option String
  lastSeen : Option Int
deriving DecidableEq

structure Zone where
  id : String
  name : String
deriving DecidableEq

/-- The three directory fetches of the monitor, already joined: zones,
devices, and Zigbee state nodes. -/
structure ZbData where
  zones : List Zone
  devices : List Device
  nodes : List ZbNode
deriving DecidableEq

/-- The run environment: the joined fetch (a rejection of any of the three
promises rejects the whole `Promise.all`) and the clock. -/
structure ZbEnv where
  fetch : Except Unit ZbData
  now : Int

/-- `node.name || '(unknown)'`. -/
def zbNodeLabel (node : ZbNode) : String := node.name.getD "(unknown)"

/-- `allDevices.find(d => d.name === node.name)`. -/
def zbFindDevice (allDevices : List Device) (node : ZbNode) : Option Device :=
  match node.name with
  | none => none
  | some nm => allDevices.find? (fun d => d.name == nm)

/-- `zoneMap[zid]` built by assignment over the zones (later entries win). -/
def zoneNameFor (zones : List Zone) (zid : String) : Option String :=
  (zones.reverse.find? (fun z => z.id == zid)).map Zone.name

/-- One entry of the `DevicesNotReporting` list of the monitor: the node
label and the reason text (the formatted date and type are rendering). -/
structure ZbNokEntry where
  name : String
  reason : String
deriving DecidableEq

/-- One entry of the `DevicesLowBattery` list: the node label and the
percentage-or-ALARM label. -/
structure ZbLowBatteryEntry where
  name : String
  label : String
deriving DecidableEq

/-- Mutable state threaded through the node loop of the monitor. -/
structure ZbAcc where
  notReportingCount : Int
  lowBatteryCount : Int
  devicesNotReporting : List ZbNokEntry
  devicesLowBattery : List ZbLowBatteryEntry
deriving DecidableEq

/-- The body of the node loop: node-type filter, zone exclusion, class and
name filters (the include-name regex is match-all and never filters), the
last-seen check, and the battery checks. The console table rows and counters
that only feed the printed table are elided. -/
def zbProcessNode (data : ZbData) (now : Int) (acc : ZbAcc) (node : ZbNode) : ZbAcc :=
  let typeLower := (node.nodeType.map lowerStr).getD ""
  if (!includeRouters && typeLower == "router") ||
     (!includeEndDevices && typeLower == "enddevice") then acc
  else
    let homeyDevice := zbFindDevice data.devices node
    let zoneName : Option String :=
      match homeyDevice with
      | some hd =>
        match hd.zone with
        | some zid => zoneNameFor data.zones zid
        | none => none
      | none => none
    if (match zoneName with
        | some zn => EXCLUDED_ZONES.any (fun z => lowerStr z == lowerStr zn)
        | none => false) then acc
    else
      let filteredOut :=
        match homeyDevice with
        | some hd =>
          !(INCLUDED_DEVICE_CLASSES.any (fun c => containsCI hd.deviceClass c)) ||
            (EXCLUDED_DEVICE_NAMES.any (fun p => containsCI hd.name p))
        | none => false
      if filteredOut then acc
      else
        let label := zbNodeLabel node
        let acc1 :=
          match zigbeeLastSeenStatus node.lastSeen now zbThresholdInMillis with
          | .nokNoUpdates =>
            { acc with
              notReportingCount := acc.notReportingCount + 1
              devicesNotReporting := acc.devicesNotReporting ++ [⟨label, "no updates"⟩] }
          | .nokThreshold =>
            { acc with
              notReportingCount := acc.notReportingCount + 1
              devicesNotReporting := acc.devicesNotReporting ++ [⟨label, "threshold 2h"⟩] }
          | .ok => acc
        match homeyDevice with
        | none => acc1
        | some hd =>
          let acc2 :=
            if hd.capabilities.contains "measure_battery" then
              match capValue hd "measure_battery" with
              | .n v =>
                if v ≤ BatteryThreshold then
                  { acc1 with
                    lowBatteryCount := acc1.lowBatteryCount + 1
                    devicesLowBattery := acc1.devicesLowBattery ++ [⟨label, "pct"⟩] }
                else acc1
              | _ => acc1
            else acc1
          if hd.capabilities.contains "alarm_battery" then
            if capValue hd "alarm_battery" == CapValue.b true then
              if acc2.devicesLowBattery.any (fun e => e.name == label) then acc2
              else
                { acc2 with
                  lowBatteryCount := acc2.lowBatteryCount + 1
                  devicesLowBattery := acc2.devicesLowBattery ++ [⟨label, "ALARM"⟩] }
            else acc2
          else acc2

/-- The published outcome of one monitor run: the four tag payloads
(`notReportingCount`, `lowBatteryCount` and the two joined lists) and
whether the catch branch produced the error return string. -/
structure ZbRunResult where
  notReportingCount : Int
  lowBatteryCount : Int
  devicesNotReporting : List ZbNokEntry
  devicesLowBattery : List ZbLowBatteryEntry
  errorResult : Bool
deriving DecidableEq

/-- `checkZigbeeLastSeen()`: the whole body sits in a try/catch. On a fetch
failure the catch branch tags `InvalidatedDevices` and `LowBatteryDevices`
with empty strings, both counts with the sentinel -1, and returns the
distinct error string, modelled by `errorResult := true`. The run is a total
function: it resolves for every environment. -/
def checkZigbeeLastSeen (env : ZbEnv) : ZbRunResult :=
  match env.fetch with
  | .error _ => ⟨-1, -1, [], [], true⟩
  | .ok data =>
    let acc := data.nodes.foldl (zbProcessNode data env.now) ⟨0, 0, [], []⟩
    ⟨acc.notReportingCount, acc.lowBatteryCount, acc.devicesNotReporting,
     acc.devicesLowBattery, false⟩

/-! ## Theorems -/

/-- C6: for an absent input, an empty input string, or a wholly non-numeric
input string (one on which the duration regex fails to match and `Number`
yields NaN), `parseDurationToMs` returns the caller-supplied default
magnitude unchanged. The parser is a total function of its input, so no
malformed input can make it throw. -/
theorem parseDuration_default_on_failure (opts : DurOpts) (s : String)
    (hm : matchDuration (normInput s) = none)
    (hn : jsNumber (normInput s) = none) :
    parseDurationToMs none opts = opts.defaultMs ∧
    parseDurationToMs (some "") opts = opts.defaultMs ∧
    parseDurationToMs (some s) opts = opts.defaultMs := by
  refine ⟨rfl, rfl, ?_⟩
  simp only [parseDurationToMs]
  by_cases h : (s == "") = true
  · rw [if_pos h]
  · rw [if_neg h]
    simp only [hm, hn]

/-- Witness for C6 at the concrete garbage input "garbage" with default 42. -/
theorem parseDuration_default_on_failure_witness :
    matchDuration (normInput "garbage") = none ∧
    jsNumber (normInput "garbage") = none ∧
    parseDurationToMs (some "garbage") ⟨'m', 42⟩ = 42 :=
  ⟨by decide, by decide,
    (parseDuration_default_on_failure ⟨'m', 42⟩ "garbage" (by decide) (by decide)).2.2⟩

/-- A successful `parseUnitEnd` with an explicit unit passes the numeric
value through and only ever yields one of the four unit letters. -/
theorem parseUnitEnd_some_unit (rest : List Char) (v n : ℚ) (u : Char)
    (h : parseUnitEnd rest v = some (n, some u)) :
    n = v ∧ (u = 's' ∨ u = 'm' ∨ u = 'h' ∨ u = 'd') := by
  match rest with
  | [] => simp [parseUnitEnd] at h
  | [c] =>
    simp only [parseUnitEnd] at h
    split at h
    · rename_i hc
      simp only [Option.some.injEq, Prod.mk.injEq] at h
      obtain ⟨h1, h2⟩ := h
      subst h1
      obtain rfl : c = u := h2
      simp only [Bool.or_eq_true, beq_iff_eq] at hc
      exact ⟨rfl, by tauto⟩
    · simp at h
  | a :: b :: t => simp [parseUnitEnd] at h

/-- A successful duration-regex match with an explicit unit yields one of
the four unit letters. -/
theorem matchDuration_some_unit (l : List Char) (n : ℚ) (u : Char)
    (h : matchDuration l = some (n, some u)) :
    u = 's' ∨ u = 'm' ∨ u = 'h' ∨ u = 'd' := by
  simp only [matchDuration] at h
  split at h
  · simp at h
  · split at h
    · split at h
      · simp at h
      · exact (parseUnitEnd_some_unit _ _ _ _ h).2
    · exact (parseUnitEnd_some_unit _ _ _ _ h).2

/-- For a recognised unit letter, `applyUnit` is multiplication by the
(positive) millisecond weight of that unit. -/
theorem applyUnit_eq_mul (v dm : ℚ) (u : Char)
    (hu : u = 's' ∨ u = 'm' ∨ u = 'h' ∨ u = 'd') :
    applyUnit v u dm = v * msPerUnit u ∧ 0 < msPerUnit u := by
  rcases hu with h | h | h | h <;> subst h <;>
    constructor <;> simp [applyUnit, msPerUnit] <;> ring

/-- C7: the duration parser is unit-correct and monotonic for inputs with
an explicit unit suffix: a string matching as magnitude `n` with unit `u`
parses to exactly `n` times the milliseconds of one `u`, and a larger
magnitude with the same unit never parses to a smaller result. -/
theorem parseDuration_unit_correct (opts : DurOpts) (s1 s2 : String)
    (n1 n2 : ℚ) (u : Char)
    (h1 : matchDuration (normInput s1) = some (n1, some u))
    (h2 : matchDuration (normInput s2) = some (n2, some u))
    (hle : n1 ≤ n2) :
    parseDurationToMs (some s1) opts = n1 * msPerUnit u ∧
    parseDurationToMs (some s2) opts = n2 * msPerUnit u ∧
    parseDurationToMs (some s1) opts ≤ parseDurationToMs (some s2) opts := by
  have hu := matchDuration_some_unit _ _ _ h1
  have key : ∀ (s : String) (n : ℚ), matchDuration (normInput s) = some (n, some u) →
      parseDurationToMs (some s) opts = n * msPerUnit u := by
    intro s n h
    have hne : (s == "") = false := by
      rcases hb : s == "" with _ | _
      · rfl
      · exfalso
        have hs : s = "" := eq_of_beq hb
        subst hs
        rw [show matchDuration (normInput "") = none from rfl] at h
        simp at h
    simp only [parseDurationToMs, hne, Bool.false_eq_true, if_false, h, Option.getD_some]
    exact (applyUnit_eq_mul n opts.defaultMs u hu).1
  have e1 := key s1 n1 h1
  have e2 := key s2 n2 h2
  refine ⟨e1, e2, ?_⟩
  rw [e1, e2]
  exact mul_le_mul_of_nonneg_right hle (applyUnit_eq_mul 0 0 u hu).2.le

/-- Witness for C7 at "1h" and "2h": the parse of "2h" is exactly twice the
parse of "1h". -/
theorem parseDuration_unit_correct_witness :
    matchDuration (normInput "1h") = some (1, some 'h') ∧
    matchDuration (normInput "2h") = some (2, some 'h') ∧
    parseDurationToMs (some "1h") ⟨'m', 999⟩ = 1 * msPerUnit 'h' ∧
    parseDurationToMs (some "2h") ⟨'m', 999⟩ = 2 * msPerUnit 'h' ∧
    parseDurationToMs (some "2h") ⟨'m', 999⟩ =
      2 * parseDurationToMs (some "1h") ⟨'m', 999⟩ := by
  have h1 : matchDuration (normInput "1h") = some (1, some 'h') := by decide
  have h2 : matchDuration (normInput "2h") = some (2, some 'h') := by decide
  obtain ⟨e1, e2, _⟩ :=
    parseDuration_unit_correct ⟨'m', 999⟩ "1h" "2h" 1 2 'h' h1 h2 (by norm_num)
  exact ⟨h1, h2, e1, e2, by rw [e1, e2]; ring⟩

/-- C1 counterexample: at `now = 1000` with threshold 1000 ms, the age of
`c1Dev` equals the threshold exactly, yet the wake-up helper classifies the
device fresh (its `classify` uses a strict greater-than), contradicting the
claimed age-greater-or-equal boundary. -/
theorem c1_boundary_counterexample :
    (1000 : Int) - 0 ≥ 1000 ∧
    mostRecentCapabilityTs c1Dev.capabilitiesObj = some 0 ∧
    classificationOf c1Dev 1000 1000 = Staleness.fresh := by decide

/-- C1 (amended): for a device with a valid most-recent timestamp the
wake-up helper classifies stale exactly when the age is strictly greater
than the threshold, so an age exactly equal to the threshold is fresh; the
Zigbee monitor instead flags NOK-by-threshold exactly when age is greater
or equal. Both boundaries are single deterministic rules. -/
theorem staleness_boundary_rules (d : Device) (now thresholdMs ts : Int)
    (h : mostRecentCapabilityTs d.capabilitiesObj = some ts) :
    (classificationOf d now thresholdMs = Staleness.stale ↔ now - ts > thresholdMs) ∧
    (classificationOf d now thresholdMs = Staleness.fresh ↔ ¬ now - ts > thresholdMs) ∧
    (∀ now2 thr2 ts2 : Int,
      zigbeeLastSeenStatus (some ts2) now2 thr2 = ZigbeeStatus.nokThreshold ↔
        now2 - ts2 ≥ thr2) := by
  refine ⟨?_, ?_, ?_⟩
  · simp only [classificationOf, classify, h]
    by_cases hgt : now - ts > thresholdMs <;> simp [hgt]
  · simp only [classificationOf, classify, h]
    by_cases hgt : now - ts > thresholdMs <;> simp [hgt]
  · intro now2 thr2 ts2
    simp only [zigbeeLastSeenStatus]
    by_cases hge : now2 - ts2 ≥ thr2 <;> simp [hge]

/-- Witness for the amended C1 at the exact boundary: the wake-up helper
says fresh, the Zigbee monitor says NOK by threshold. -/
theorem staleness_boundary_rules_witness :
    mostRecentCapabilityTs c1Dev.capabilitiesObj = some 0 ∧
    classificationOf c1Dev 1000 1000 = Staleness.fresh ∧
    zigbeeLastSeenStatus (some 0) 1000 1000 = ZigbeeStatus.nokThreshold := by
  have h : mostRecentCapabilityTs c1Dev.capabilitiesObj = some 0 := by decide
  obtain ⟨_, h2, h3⟩ := staleness_boundary_rules c1Dev 1000 1000 0 h
  exact ⟨h, h2.mpr (by decide), (h3 1000 1000 0).mpr (by decide)⟩

/-- C2: every device lands in exactly one of the three states; the state is
unknown precisely when no capability carries a valid timestamp, and a device
with zero valid timestamps is therefore never classified stale. -/
theorem classification_three_state (d : Device) (now thresholdMs : Int) :
    (classificationOf d now thresholdMs = Staleness.fresh ∨
     classificationOf d now thresholdMs = Staleness.stale ∨
     classificationOf d now thresholdMs = Staleness.unknown) ∧
    (classificationOf d now thresholdMs = Staleness.unknown ↔
      mostRecentCapabilityTs d.capabilitiesObj = none) ∧
    (mostRecentCapabilityTs d.capabilitiesObj = none →
      classificationOf d now thresholdMs ≠ Staleness.stale) := by
  cases hm : mostRecentCapabilityTs d.capabilitiesObj with
  | none => simp [classificationOf, classify, hm]
  | some ts =>
    simp only [classificationOf, classify, hm]
    by_cases hgt : now - ts > thresholdMs <;> simp [hgt]

/-- Witness for C2 at a device with zero valid capability timestamps. -/
theorem classification_three_state_witness :
    mostRecentCapabilityTs c2Dev.capabilitiesObj = none ∧
    classificationOf c2Dev 5 5 ≠ Staleness.stale :=
  ⟨by decide, (classification_three_state c2Dev 5 5).2.2 (by decide)⟩

/-- An accepted device under the shipped CONFIG was necessarily a candidate
through the class rule: the include-name list is empty, so the name rule
matches nothing. -/
theorem included_class_candidate (d : Device)
    (h : (isIncludedByConfig (some d)).ok = true) :
    CONFIG_includeClasses.any (fun cls => classIs d cls CONFIG_treatVirtualClassAsClass) = true := by
  simp only [isIncludedByConfig] at h
  split at h
  · simp at h
  · split at h
    · simp at h
    · split at h
      · simp at h
      · split at h
        · simp at h
        · rename_i hcand _ _
          rw [show nameMatchesAny d.name RX_INCLUDE_NAME = false from rfl] at hcand
          simpa using hcand

/-- C8: the shipped include-name pattern list compiles to the empty list,
`nameMatchesAny` on it is false for every name, and any device accepted by
the inclusion filter became a candidate via the class rule alone — an empty
include list never behaves as match-everything. -/
theorem empty_include_list_never_matches (name : String) (d : Device)
    (h : (isIncludedByConfig (some d)).ok = true) :
    RX_INCLUDE_NAME = [] ∧
    nameMatchesAny name RX_INCLUDE_NAME = false ∧
    CONFIG_includeClasses.any (fun cls => classIs d cls CONFIG_treatVirtualClassAsClass) = true :=
  ⟨rfl, rfl, included_class_candidate d h⟩

/-- Witness for C8 at an accepted concrete device. -/
theorem empty_include_list_never_matches_witness :
    (isIncludedByConfig (some c8Dev)).ok = true ∧
    nameMatchesAny "Desk lamp" RX_INCLUDE_NAME = false :=
  ⟨by decide, (empty_include_list_never_matches "Desk lamp" c8Dev (by decide)).2.1⟩

/-- One loop step keeps `nokCount` in lockstep with the candidate list and
keeps the NOK lines aligned by name with the candidates. -/
theorem processDevice_lockstep (wakeOk : String → Bool) (now thr : Int) (acc : MainAcc)
    (d : Device) (h1 : acc.nokCount = acc.nokCandidates.length)
    (h2 : acc.lines.map NokLine.name = acc.nokCandidates.map Cand.name) :
    (processDevice wakeOk now thr acc d).nokCount =
      (processDevice wakeOk now thr acc d).nokCandidates.length ∧
    (processDevice wakeOk now thr acc d).lines.map NokLine.name =
      (processDevice wakeOk now thr acc d).nokCandidates.map Cand.name := by
  by_cases hinc : (isIncludedByConfig (some d)).ok = true
  · by_cases hfail : ((classify d now thr).isStale || (classify d now thr).isUnknown) = true
    · by_cases hlo : ((classify d now thr).isLight && (classify d now thr).hasOnoff) = true
      · simp [processDevice, hinc, hfail, hlo, h1, h2]
      · rw [Bool.not_eq_true] at hlo
        simp [processDevice, hinc, hfail, hlo, h1, h2]
    · rw [Bool.not_eq_true] at hfail
      simp [processDevice, hinc, hfail, h1, h2]
  · rw [Bool.not_eq_true] at hinc
    simp [processDevice, hinc, h1, h2]

/-- Folding the loop over any device list preserves the lockstep invariant. -/
theorem foldl_lockstep (wakeOk : String → Bool) (now thr : Int) (devs : List Device)
    (acc : MainAcc) (h1 : acc.nokCount = acc.nokCandidates.length)
    (h2 : acc.lines.map NokLine.name = acc.nokCandidates.map Cand.name) :
    (devs.foldl (processDevice wakeOk now thr) acc).nokCount =
      (devs.foldl (processDevice wakeOk now thr) acc).nokCandidates.length ∧
    (devs.foldl (processDevice wakeOk now thr) acc).lines.map NokLine.name =
      (devs.foldl (processDevice wakeOk now thr) acc).nokCandidates.map Cand.name := by
  induction devs generalizing acc with
  | nil => exact ⟨h1, h2⟩
  | cons d rest ih =>
    simp only [List.foldl_cons]
    obtain ⟨g1, g2⟩ := processDevice_lockstep wakeOk now thr acc d h1 h2
    exact ih _ g1 g2

/-- The main pass satisfies the lockstep invariant. -/
theorem mainPass_lockstep (devices : List Device) (wakeOk : String → Bool) (now thr : Int) :
    (mainPass devices wakeOk now thr).nokCount =
      (mainPass devices wakeOk now thr).nokCandidates.length ∧
    (mainPass devices wakeOk now thr).lines.map NokLine.name =
      (mainPass devices wakeOk now thr).nokCandidates.map Cand.name :=
  foldl_lockstep wakeOk now thr devices initMainAcc rfl rfl

/-- One loop step bumps the attempt counter exactly for an eligible device
and the success counter exactly for an eligible device whose write
succeeds. -/
theorem processDevice_wake_counts (wakeOk : String → Bool) (now thr : Int)
    (acc : MainAcc) (d : Device) :
    (processDevice wakeOk now thr acc d).wokenAttempted =
      acc.wokenAttempted + (if wakeEligible now thr d then 1 else 0) ∧
    (processDevice wakeOk now thr acc d).wokenSucceeded =
      acc.wokenSucceeded + (if wakeEligible now thr d && wakeOk d.id then 1 else 0) := by
  by_cases hinc : (isIncludedByConfig (some d)).ok = true
  · by_cases hfail : ((classify d now thr).isStale || (classify d now thr).isUnknown) = true
    · by_cases hlo : ((classify d now thr).isLight && (classify d now thr).hasOnoff) = true
      · simp [processDevice, wakeEligible, hinc, hfail, hlo]
      · rw [Bool.not_eq_true] at hlo
        simp [processDevice, wakeEligible, hinc, hfail, hlo]
    · rw [Bool.not_eq_true] at hfail
      simp [processDevice, wakeEligible, hinc, hfail]
  · rw [Bool.not_eq_true] at hinc
    simp [processDevice, wakeEligible, hinc]

/-- Folding the loop tallies attempts and successes as filters over the
device list. -/
theorem foldl_wake_counts (wakeOk : String → Bool) (now thr : Int) (devs : List Device)
    (acc : MainAcc) :
    (devs.foldl (processDevice wakeOk now thr) acc).wokenAttempted =
      acc.wokenAttempted + (devs.filter (wakeEligible now thr)).length ∧
    (devs.foldl (processDevice wakeOk now thr) acc).wokenSucceeded =
      acc.wokenSucceeded +
        (devs.filter (fun d => wakeEligible now thr d && wakeOk d.id)).length := by
  induction devs generalizing acc with
  | nil => simp
  | cons d rest ih =>
    simp only [List.foldl_cons, List.filter_cons]
    obtain ⟨s1, s2⟩ := processDevice_wake_counts wakeOk now thr acc d
    obtain ⟨i1, i2⟩ := ih (processDevice wakeOk now thr acc d)
    constructor
    · rw [i1, s1]
      by_cases h : wakeEligible now thr d = true <;> simp [h] <;> omega
    · rw [i2, s2]
      by_cases h : (wakeEligible now thr d && wakeOk d.id) = true <;> simp [h] <;> omega

/-- C4: after the all-complete join, `wokenAttempted` is the number of
eligible devices and `wokenSucceeded` the number of successful writes; no
combination of per-device outcomes can make the run fail to complete. In
the concrete three-device scenario where the write for b fails and those
for a and c succeed, the counters end at 3 and 2. -/
theorem wake_join_counts (devs refreshed : List Device) (wakeOk : String → Bool)
    (now now2 thr : Int) :
    (mainPass devs wakeOk now thr).wokenAttempted =
      (devs.filter (wakeEligible now thr)).length ∧
    (mainPass devs wakeOk now thr).wokenSucceeded =
      (devs.filter (fun d => wakeEligible now thr d && wakeOk d.id)).length ∧
    (wakeupDevices thr ⟨.ok devs, .ok refreshed, now, now2, wakeOk⟩).isOk = true ∧
    (mainPass [c4DevA, c4DevB, c4DevC] c4WakeOk 1000000 10).wokenAttempted = 3 ∧
    (mainPass [c4DevA, c4DevB, c4DevC] c4WakeOk 1000000 10).wokenSucceeded = 2 := by
  obtain ⟨a1, a2⟩ := foldl_wake_counts wakeOk now thr devs initMainAcc
  refine ⟨by simpa [mainPass, initMainAcc] using a1, by simpa [mainPass, initMainAcc] using a2,
    ?_, by decide, by decide⟩
  simp only [wakeupDevices]
  split
  · split <;> rfl
  · rfl

/-- C5: for a device accepted by the inclusion filter (under the shipped
CONFIG every accepted device counts as a light, making the isLight guard of
the source automatic), a wake attempt is issued exactly when the device is
classified stale or unknown and exposes the onoff capability; and when the
stored onoff value is a boolean, the value written back is exactly that
current value. -/
theorem wake_attempt_iff (wakeOk : String → Bool) (now thr : Int) (acc : MainAcc)
    (d : Device) (hinc : (isIncludedByConfig (some d)).ok = true) :
    ((processDevice wakeOk now thr acc d).wokenAttempted =
      acc.wokenAttempted +
        (if ((classify d now thr).isStale || (classify d now thr).isUnknown) &&
            (classify d now thr).hasOnoff then 1 else 0)) ∧
    (∀ v, capValue d "onoff" = CapValue.b v →
      (processDevice wakeOk now thr acc d).wakeWrites =
        acc.wakeWrites ++
          (if ((classify d now thr).isStale || (classify d now thr).isUnknown) &&
              (classify d now thr).hasOnoff then [(d.id, v)] else [])) := by
  have hlight : (classify d now thr).isLight = true := by
    have hc := included_class_candidate d hinc
    simp only [CONFIG_includeClasses, CONFIG_treatVirtualClassAsClass, List.any_cons,
      List.any_nil, Bool.or_false] at hc
    cases hm : mostRecentCapabilityTs d.capabilitiesObj <;> simp [classify, hm, hc]
  constructor
  · by_cases hfail : ((classify d now thr).isStale || (classify d now thr).isUnknown) = true
    · by_cases hoo : (classify d now thr).hasOnoff = true
      · simp [processDevice, hinc, hfail, hoo, hlight]
      · rw [Bool.not_eq_true] at hoo
        simp [processDevice, hinc, hfail, hoo, hlight]
    · rw [Bool.not_eq_true] at hfail
      simp [processDevice, hinc, hfail, hlight]
  · intro v hv
    have hj : jsTruthy (capValue d "onoff") = v := by rw [hv]; rfl
    by_cases hfail : ((classify d now thr).isStale || (classify d now thr).isUnknown) = true
    · by_cases hoo : (classify d now thr).hasOnoff = true
      · simp [processDevice, hinc, hfail, hoo, hlight, hj]
      · rw [Bool.not_eq_true] at hoo
        simp [processDevice, hinc, hfail, hoo, hlight]
    · rw [Bool.not_eq_true] at hfail
      simp [processDevice, hinc, hfail, hlight]

/-- Witness for C5: one attempt is issued and the write carries the current
onoff value true. -/
theorem wake_attempt_iff_witness :
    (isIncludedByConfig (some c5Dev)).ok = true ∧
    capValue c5Dev "onoff" = CapValue.b true ∧
    (processDevice (fun _ => true) 1000000 10 initMainAcc c5Dev).wokenAttempted = 1 ∧
    (processDevice (fun _ => true) 1000000 10 initMainAcc c5Dev).wakeWrites =
      [("c5", true)] := by
  have h := wake_attempt_iff (fun _ => true) 1000000 10 initMainAcc c5Dev (by decide)
  refine ⟨by decide, by decide, ?_, ?_⟩
  · rw [h.1]; decide
  · rw [h.2 true (by decide)]; decide

/-- A filter that removes nothing, witnessed by preserved length, is the
identity. -/
theorem filter_eq_self_of_length_eq {α : Type} (p : α → Bool) (l : List α)
    (h : (l.filter p).length = l.length) : l.filter p = l := by
  induction l with
  | nil => rfl
  | cons a t ih =>
    by_cases hp : p a = true
    · simp only [List.filter_cons, hp, if_true, List.length_cons] at h ⊢
      rw [ih (by omega)]
    · rw [Bool.not_eq_true] at hp
      simp only [List.filter_cons, hp, Bool.false_eq_true, if_false] at h
      have hle := List.length_filter_le p t
      simp only [List.length_cons] at h
      omega

/-- C3: when the first-pass failing set is non-empty, the validation pass
re-runs the classifier on exactly the original candidates against the
re-fetched directory; a candidate missing from that directory stays in the
still-failing set; the final report carries exactly the reconciled
still-failing devices, and the published nokCount equals the original
failing count minus the number of recovered devices. The stability
hypothesis says the re-fetch did not rename the candidate devices, which
pins down the names in the final list. -/
theorem validation_reconciliation (devs refreshed : List Device)
    (wakeOk : String → Bool) (now now2 thr : Int)
    (hne : (mainPass devs wakeOk now thr).nokCandidates ≠ [])
    (hstable : (mainPass devs wakeOk now thr).nokCandidates.all (fun c =>
      refreshed.all (fun d2 => !(d2.id == c.id) || (d2.name == c.name))) = true) :
    ∃ r, wakeupDevices thr ⟨.ok devs, .ok refreshed, now, now2, wakeOk⟩ = .ok r ∧
      r.devicesNotReporting.map NokLine.name =
        ((mainPass devs wakeOk now thr).nokCandidates.filter
          (stillFails refreshed now2 thr)).map Cand.name ∧
      r.nokCount = (mainPass devs wakeOk now thr).nokCandidates.length -
        ((mainPass devs wakeOk now thr).nokCandidates.filter
          (fun c => !stillFails refreshed now2 thr c)).length ∧
      (∀ c ∈ (mainPass devs wakeOk now thr).nokCandidates,
        byIdLookup refreshed c.id = none →
          c ∈ (mainPass devs wakeOk now thr).nokCandidates.filter
            (stillFails refreshed now2 thr)) := by
  obtain ⟨hlock1, hlock2⟩ := mainPass_lockstep devs wakeOk now thr
  have hmem3 : ∀ c ∈ (mainPass devs wakeOk now thr).nokCandidates,
      byIdLookup refreshed c.id = none →
        c ∈ (mainPass devs wakeOk now thr).nokCandidates.filter
          (stillFails refreshed now2 thr) := by
    intro c hc hid
    refine List.mem_filter.mpr ⟨hc, ?_⟩
    simp [stillFails, hid]
  have hstable' : ∀ c ∈ (mainPass devs wakeOk now thr).nokCandidates,
      ∀ d2, byIdLookup refreshed c.id = some d2 → d2.name = c.name := by
    intro c hc d2 hd
    unfold byIdLookup at hd
    have hmem : d2 ∈ refreshed := List.mem_reverse.mp (List.mem_of_find?_eq_some hd)
    have hid : (d2.id == c.id) = true := by simpa using List.find?_some hd
    have h2 := (List.all_eq_true.mp ((List.all_eq_true.mp hstable) c hc)) d2 hmem
    rw [hid] at h2
    simpa using h2
  have hmapnames : (((mainPass devs wakeOk now thr).nokCandidates.filter
        (stillFails refreshed now2 thr)).map (fun f =>
          match byIdLookup refreshed f.id with
          | none => NokLine.mk f.name
          | some d3 => NokLine.mk d3.name)).map NokLine.name =
      ((mainPass devs wakeOk now thr).nokCandidates.filter
        (stillFails refreshed now2 thr)).map Cand.name := by
    rw [List.map_map]
    apply List.map_congr_left
    intro c hc
    have hc' := List.mem_of_mem_filter hc
    cases hd : byIdLookup refreshed c.id with
    | none => simp [Function.comp, hd]
    | some d3 => simp [Function.comp, hd, hstable' c hc' d3 hd]
  have hfl := List.length_filter_le (stillFails refreshed now2 thr)
    (mainPass devs wakeOk now thr).nokCandidates
  have hpart := List.length_eq_length_filter_add
    (l := (mainPass devs wakeOk now thr).nokCandidates) (stillFails refreshed now2 thr)
  have hpos : decide ((mainPass devs wakeOk now thr).nokCandidates.length > 0) = true := by
    simp [List.length_pos, hne]
  simp only [wakeupDevices, hpos, if_true]
  by_cases hrec : decide ((mainPass devs wakeOk now thr).nokCandidates.length -
      ((mainPass devs wakeOk now thr).nokCandidates.filter
        (stillFails refreshed now2 thr)).length > 0) = true
  · simp only [hrec, if_true]
    refine ⟨_, rfl, hmapnames, ?_, hmem3⟩
    simp only [hlock1]
    omega
  · rw [Bool.not_eq_true] at hrec
    simp only [hrec, Bool.false_eq_true, if_false]
    refine ⟨_, rfl, ?_, ?_, hmem3⟩
    · have hlen : ((mainPass devs wakeOk now thr).nokCandidates.filter
          (stillFails refreshed now2 thr)).length =
          (mainPass devs wakeOk now thr).nokCandidates.length := by
        simp only [decide_eq_false_iff_not, not_lt, Nat.le_zero] at hrec
        omega
      rw [filter_eq_self_of_length_eq _ _ hlen]
      exact hlock2
    · simp only [decide_eq_false_iff_not, not_lt, Nat.le_zero] at hrec
      simp only [hlock1]
      omega

/-- Witness for C3: original failing set is the pair A, B; after the delay A
re-classifies fresh and B remains stale, so the final list is exactly B and
nokCount drops from 2 to 1. -/
theorem validation_reconciliation_witness :
    (mainPass [c3DevA, c3DevB] (fun _ => true) 1000000 50).nokCandidates ≠ [] ∧
    (mainPass [c3DevA, c3DevB] (fun _ => true) 1000000 50).nokCandidates.length = 2 ∧
    (∃ r, wakeupDevices 50
        ⟨.ok [c3DevA, c3DevB], .ok [c3DevA2, c3DevB], 1000000, 1000000, fun _ => true⟩ =
          .ok r ∧
      r.devicesNotReporting.map NokLine.name = ["B"] ∧
      r.nokCount = 1) := by
  refine ⟨by decide, by decide, ?_⟩
  obtain ⟨r, hr, hnames, hcount, _⟩ :=
    validation_reconciliation [c3DevA, c3DevB] [c3DevA2, c3DevB] (fun _ => true)
      1000000 1000000 50 (by decide) (by decide)
  refine ⟨r, hr, ?_, ?_⟩
  · rw [hnames]; decide
  · rw [hcount]; decide

/-- C10: whenever a run completes and publishes its outputs, the published
nokCount equals the length of the published DevicesNotReporting list — with
no validation pass, after a reconciliation that rewrote the list, and after
a reconciliation in which zero devices recovered. -/
theorem published_count_matches_list (thr : Int) (env : WEnv) (r : RunResult)
    (h : wakeupDevices thr env = .ok r) :
    r.nokCount = r.devicesNotReporting.length := by
  obtain ⟨f1, f2, now, now2, wakeOk⟩ := env
  cases f1 with
  | error e => simp [wakeupDevices] at h
  | ok devices =>
    obtain ⟨hl1, hl2⟩ := mainPass_lockstep devices wakeOk now thr
    have hlen : (mainPass devices wakeOk now thr).lines.length =
        (mainPass devices wakeOk now thr).nokCandidates.length := by
      have := congrArg List.length hl2
      simpa using this
    cases f2 with
    | error e2 =>
      simp only [wakeupDevices] at h
      by_cases hc : decide ((mainPass devices wakeOk now thr).nokCandidates.length > 0) = true
      · simp only [hc, if_true] at h
        simp at h
      · rw [Bool.not_eq_true] at hc
        simp only [hc, Bool.false_eq_true, if_false] at h
        injection h with h
        subst h
        dsimp only
        omega
    | ok refreshed =>
      simp only [wakeupDevices] at h
      have hfl := List.length_filter_le (stillFails refreshed now2 thr)
        (mainPass devices wakeOk now thr).nokCandidates
      by_cases hc : decide ((mainPass devices wakeOk now thr).nokCandidates.length > 0) = true
      · simp only [hc, if_true] at h
        by_cases hrec : decide ((mainPass devices wakeOk now thr).nokCandidates.length -
            ((mainPass devices wakeOk now thr).nokCandidates.filter
              (stillFails refreshed now2 thr)).length > 0) = true
        · simp only [hrec, if_true] at h
          injection h with h
          subst h
          dsimp only
          simp only [List.length_map]
          omega
        · rw [Bool.not_eq_true] at hrec
          simp only [hrec, Bool.false_eq_true, if_false] at h
          injection h with h
          subst h
          dsimp only
          omega
      · rw [Bool.not_eq_true] at hc
        simp only [hc, Bool.false_eq_true, if_false] at h
        injection h with h
        subst h
        dsimp only
        omega

/-- Witness for C10 at a run whose reconciliation recovers nothing: B stays
stale, the original list is kept, and the count still matches. -/
theorem published_count_matches_list_witness :
    wakeupDevices 50 ⟨.ok [c3DevB], .ok [c3DevB], 1000000, 1000000, fun _ => true⟩ =
      Except.ok (⟨0, 1, 0, 0, [⟨"B"⟩], true⟩ : RunResult) ∧
    (⟨0, 1, 0, 0, [⟨"B"⟩], true⟩ : RunResult).nokCount =
      (⟨0, 1, 0, 0, [⟨"B"⟩], true⟩ : RunResult).devicesNotReporting.length := by
  have h : wakeupDevices 50 ⟨.ok [c3DevB], .ok [c3DevB], 1000000, 1000000, fun _ => true⟩ =
      Except.ok (⟨0, 1, 0, 0, [⟨"B"⟩], true⟩ : RunResult) := by rfl
  exact ⟨h, published_count_matches_list 50 _ _ h⟩

/-- C9 counterexample: with a failing main directory fetch the wake-up
helper does throw past its boundary — the run propagates the rejection and
publishes nothing, instead of resolving to sentinel error values. -/
theorem c9_fetch_failure_throws :
    wakeupDevices 1000 ⟨Except.error (), Except.error (), 0, 0, fun _ => true⟩ =
      Except.error () := rfl

/-- C9 (amended): the Zigbee monitor catches a directory-fetch failure and
still resolves, to the distinct error result carrying the sentinel counts
-1 and empty lists; the wake-up helper has no handler, so a fetch failure
in its main pass — or in its validation pass when the failing set is
non-empty — propagates out of the run with no tags emitted. -/
theorem c9_amended (zenv : ZbEnv) (thr : Int) (env : WEnv)
    (hz : zenv.fetch = .error ())
    (hw : env.fetch1 = .error ()) :
    checkZigbeeLastSeen zenv = ⟨-1, -1, [], [], true⟩ ∧
    wakeupDevices thr env = .error () ∧
    (∀ env2 devs, env2.fetch1 = .ok devs → env2.fetch2 = .error () →
      (mainPass devs env2.wakeOk env2.now thr).nokCandidates ≠ [] →
      wakeupDevices thr env2 = .error ()) := by
  refine ⟨?_, ?_, ?_⟩
  · unfold checkZigbeeLastSeen
    rw [hz]
  · unfold wakeupDevices
    rw [hw]
  · intro env2 devs h1 h2 hne
    have hpos : decide ((mainPass devs env2.wakeOk env2.now thr).nokCandidates.length > 0)
        = true := by
      simp [List.length_pos, hne]
    obtain ⟨f1, f2, now2a, now2b, wakeOk2⟩ := env2
    simp only at h1 h2 hne hpos
    subst h1
    subst h2
    simp only [wakeupDevices, hpos, if_true]

/-- Witness for the amended C9 at concrete failing environments. -/
theorem c9_amended_witness :
    checkZigbeeLastSeen ⟨Except.error (), 0⟩ = ⟨-1, -1, [], [], true⟩ ∧
    wakeupDevices 7 ⟨Except.error (), Except.ok [], 0, 0, fun _ => false⟩ =
      Except.error () := by
  obtain ⟨h1, h2, _⟩ :=
    c9_amended ⟨Except.error (), 0⟩ 7 ⟨Except.error (), Except.ok [], 0, 0, fun _ => false⟩
      rfl rfl
  exact ⟨h1, h2⟩
